import Mathlib

/-!
Shallow embedding of the FindTheSpy backend game coordinator
(app/routers/game.py together with the schema of app/models.py).

Rows of the four tables become structures; the database state is a
`GameState` holding the four row lists.  Each HTTP endpoint of
app/routers/game.py becomes a function `GameState → Except HTTPError
GameState`; an `Except.error` result models an HTTPException raised
before any write was committed (each handler either validates before
mutating or runs inside a transaction that rolls back on error), so the
caller's state is unchanged in the error case.

Two parts of the operative schema are not provisioned by
app/models.py's CREATE TABLE statements although app/routers/game.py
reads and writes them; they are modelled from the spec where noted:
the rooms columns host_name / current_phase, and the unique constraint
on votes (room_code, voter_name, round) that the ON CONFLICT clause of
the vote handler names.

Nondeterministic inputs (random.sample's choice of spy ids, the remote
word-pair fetch) are passed to the endpoint functions as explicit
oracle arguments; theorems assume only the postconditions the sources
of nondeterminism guarantee (a sample is a nodup sublist of the ids of
the given size, a fetch either fails or yields a pair).
-/

/-- Row of the rooms table.  Modelled from the spec: models.py creates
rooms with only (id, code, mafia_count, status), but game.py inserts
host_name and reads/writes current_phase on every transition, so the
operative schema is the one of spec section 6: rooms(code, mafia_count,
host_name, status, current_phase).  A freshly created room has status
"waiting" (the models.py default) and current_phase "none" (the spec's
initial phase). -/
structure Room where
  code : String
  mafia_count : Nat
  host_name : String
  status : String
  current_phase : String
deriving DecidableEq

/-- Row of the players table (models.py): id SERIAL, room_code, name,
is_mafia BOOLEAN (NULL until a round assigns roles), eliminated
(default FALSE), word (NULL until assigned), score (default 0),
round (default 1). -/
structure Player where
  id : Nat
  room_code : String
  name : String
  is_mafia : Option Bool
  eliminated : Bool
  word : Option String
  score : Int
  round : Nat
deriving DecidableEq

/-- Row of the votes table (models.py): room_code, round, voter_name,
voted_name. -/
structure Vote where
  room_code : String
  round : Nat
  voter_name : String
  voted_name : String
deriving DecidableEq

/-- Row of the round_results table (models.py): room_code, round,
eliminated_player, was_mafia.  was_mafia is an Option Bool because the
players.is_mafia value copied into it can be NULL. -/
structure RoundResult where
  room_code : String
  round : Nat
  eliminated_player : String
  was_mafia : Option Bool
deriving DecidableEq

/-- The database state: the four tables of models.py. -/
structure GameState where
  rooms : List Room
  players : List Player
  votes : List Vote
  round_results : List RoundResult
deriving DecidableEq

/-- An HTTPException raised by a handler: status code and detail. -/
structure HTTPError where
  status : Nat
  detail : String
deriving DecidableEq

deriving instance DecidableEq for Except

/-- The empty database. -/
def emptyState : GameState := ⟨[], [], [], []⟩

/-- Python's room_code.upper(), applied by every handler to the room
code it receives: every character is mapped to its upper-case form. -/
def upperStr (s : String) : String := ⟨s.data.map Char.toUpper⟩

/-- SELECT * FROM rooms WHERE code = rc (first row). -/
def findRoom (s : GameState) (rc : String) : Option Room :=
  s.rooms.find? (fun r => r.code == rc)

/-- SELECT * FROM players WHERE room_code = rc. -/
def playersOf (s : GameState) (rc : String) : List Player :=
  s.players.filter (fun p => p.room_code == rc)

/-- SELECT ... FROM players WHERE room_code = rc AND name = n (first row). -/
def findPlayer (s : GameState) (rc n : String) : Option Player :=
  s.players.find? (fun p => p.room_code == rc && p.name == n)

/-- The score column of the player row (rc, n), when such a row exists. -/
def scoreOf (s : GameState) (rc n : String) : Option Int :=
  (findPlayer s rc n).map (·.score)

/-- SELECT MAX(round) FROM round_results WHERE room_code = rc:
none when the room has no round_results rows. -/
def maxRoundOf (s : GameState) (rc : String) : Option Nat :=
  (s.round_results.filter (fun rr => rr.room_code == rc)).foldl
    (fun acc rr => some (max (acc.getD 0) rr.round)) none

/-- Python's `x or d` applied to an optional integer fetchval result:
both NULL (none) and 0 are falsy and give the default. -/
def pyOr (x : Option Nat) (d : Nat) : Nat :=
  match x with
  | none => d
  | some n => if n = 0 then d else n

/-- The active round as the vote and end_round handlers compute it:
MAX(round) of round_results for the room, defaulting to 1. -/
def currentRound (s : GameState) (rc : String) : Nat :=
  pyOr (maxRoundOf s rc) 1

/-- SELECT ... FROM votes WHERE room_code = rc AND round = rd. -/
def roundVotes (votes : List Vote) (rc : String) (rd : Nat) : List Vote :=
  votes.filter (fun v => v.room_code == rc && v.round == rd)

/-- COUNT(*) of this round's votes whose voted_name is n. -/
def voteCountFor (votes : List Vote) (rc : String) (rd : Nat) (n : String) : Nat :=
  (roundVotes votes rc rd).countP (fun v => v.voted_name == n)

/-- First element of the list maximising f, scanning left to right
(strictly greater elements further right displace the current pick).
Models the single row of GROUP BY voted_name ORDER BY votes DESC
LIMIT 1; the order among tied candidates is implementation-defined in
the source, and here is the first group encountered. -/
def pickTop (f : String → Nat) : List String → Option String
  | [] => none
  | n :: ns =>
    match pickTop f ns with
    | none => some n
    | some m => if f m > f n then some m else some n

/-- SELECT voted_name, COUNT(*) FROM votes WHERE room_code = rc AND
round = rd GROUP BY voted_name ORDER BY votes DESC LIMIT 1 — the
plurality target of the round, none when the round has no votes. -/
def tallyTop (votes : List Vote) (rc : String) (rd : Nat) : Option String :=
  pickTop (voteCountFor votes rc rd) (((roundVotes votes rc rd).map (·.voted_name)).dedup)

/-- COUNT(DISTINCT voter_name) FROM votes WHERE room_code = rc AND round = rd. -/
def distinctVoters (votes : List Vote) (rc : String) (rd : Nat) : Nat :=
  (((roundVotes votes rc rd).map (·.voter_name)).dedup).length

/-- Whether a votes row matches the key (room_code, voter_name, round). -/
def voteKey (v : Vote) (rc voter : String) (rd : Nat) : Bool :=
  v.room_code == rc && v.voter_name == voter && v.round == rd

/-- Whether two votes rows share the (room_code, voter_name, round)
key on which the votes table is unique. -/
def voteKeyEq (a b : Vote) : Bool :=
  a.room_code == b.room_code && a.voter_name == b.voter_name && a.round == b.round

/-- The uniqueness invariant of the votes table: no two rows share a
(room_code, voter_name, round) key, i.e. at most one vote row exists
per room, voter and round. -/
def VotesUnique (votes : List Vote) : Prop :=
  votes.Pairwise (fun a b => voteKeyEq a b = false)

instance (votes : List Vote) : Decidable (VotesUnique votes) :=
  List.instDecidablePairwise votes

/-- INSERT INTO votes ... ON CONFLICT (room_code, voter_name, round) DO
UPDATE SET voted_name = EXCLUDED.voted_name, from the vote handler.
Modelled from the spec: models.py's votes CREATE TABLE omits the unique
(room_code, voter_name, round) constraint the ON CONFLICT clause names;
spec section 6 declares it, and the upsert is modelled with that
arbiter: when a row with the key exists its voted_name is overwritten,
otherwise a fresh row is appended. -/
def upsertVote (votes : List Vote) (rc : String) (rd : Nat) (voter voted : String) : List Vote :=
  if votes.any (fun v => voteKey v rc voter rd) then
    votes.map (fun v => if voteKey v rc voter rd then { v with voted_name := voted } else v)
  else
    votes ++ [{ room_code := rc, round := rd, voter_name := voter, voted_name := voted }]

/-- Whether some votes row of (rc, rd) names n as its target
(the NOT IN subquery of the unvoted-spies reward). -/
def receivedVote (s : GameState) (rc : String) (rd : Nat) (n : String) : Bool :=
  s.votes.any (fun v => v.room_code == rc && v.round == rd && v.voted_name == n)

/-- Whether voter n cast a vote this round whose target is a spy of the
room: the subquery of the spy-eliminated reward in
process_round_results (votes JOIN players ON voted_name = name, round
and room fixed, target is_mafia = TRUE). -/
def votedForSomeSpy (s : GameState) (rc : String) (rd : Nat) (n : String) : Bool :=
  s.votes.any (fun v => v.room_code == rc && v.round == rd && v.voter_name == n &&
    s.players.any (fun pp => pp.name == v.voted_name && pp.is_mafia == some true && pp.room_code == rc))

/-- Whether voter n cast a vote this round for elimName: membership in
the correct_voters list of the end_round handler. -/
def votedForElim (s : GameState) (rc : String) (rd : Nat) (elimName n : String) : Bool :=
  s.votes.any (fun v => v.room_code == rc && v.round == rd && v.voted_name == elimName && v.voter_name == n)

/-- UPDATE players SET score = score + 1 WHERE c, as a per-row update:
rows satisfying c get +1, every other column and row is untouched. -/
def scoreBump (c : Player → Bool) (q : Player) : Player :=
  if c q then { q with score := q.score + 1 } else q

/-- Row condition of the process_round_results reward when the
eliminated player is a spy: a player of the room with is_mafia = FALSE
whose name is in the voted-for-a-spy subquery. -/
def spyVoterCond (s : GameState) (rc : String) (rd : Nat) (q : Player) : Bool :=
  q.room_code == rc && q.is_mafia == some false && votedForSomeSpy s rc rd q.name

/-- UPDATE of process_round_results when the eliminated player is a spy. -/
def rewardSpyVoters (s : GameState) (rc : String) (rd : Nat) : GameState :=
  { s with players := s.players.map (scoreBump (spyVoterCond s rc rd)) }

/-- Row condition of the end_round reward when the eliminated player is
a spy: a player of the room with name = ANY(correct_voters) and
is_mafia = FALSE, where correct_voters are this round's voters for the
eliminated player. -/
def elimVoterCond (s : GameState) (rc : String) (rd : Nat) (elimName : String) (q : Player) : Bool :=
  q.room_code == rc && votedForElim s rc rd elimName q.name && q.is_mafia == some false

/-- UPDATE of end_round when the eliminated player is a spy. -/
def rewardElimVoters (s : GameState) (rc : String) (rd : Nat) (elimName : String) : GameState :=
  { s with players := s.players.map (scoreBump (elimVoterCond s rc rd elimName)) }

/-- Row condition shared by both resolution paths when the eliminated
player is not a spy: a spy of the room whose name is NOT IN this
round's voted_name values. -/
def unvotedSpyCond (s : GameState) (rc : String) (rd : Nat) (q : Player) : Bool :=
  q.room_code == rc && q.is_mafia == some true && !(receivedVote s rc rd q.name)

/-- UPDATE shared by both resolution paths when the eliminated player is
not a spy. -/
def rewardUnvotedSpies (s : GameState) (rc : String) (rd : Nat) : GameState :=
  { s with players := s.players.map (scoreBump (unvotedSpyCond s rc rd)) }

/-- UPDATE rooms SET status = ended WHERE code = rc. -/
def endedUpd (rc : String) (r : Room) : Room :=
  if r.code == rc then { r with status := "ended" } else r

/-- UPDATE rooms SET status = ongoing, current_phase = discussion WHERE code = rc. -/
def ongoingDiscUpd (rc : String) (r : Room) : Room :=
  if r.code == rc then { r with status := "ongoing", current_phase := "discussion" } else r

/-- UPDATE rooms SET current_phase = voting WHERE code = rc. -/
def votingUpd (rc : String) (r : Room) : Room :=
  if r.code == rc then { r with current_phase := "voting" } else r

/-- Apply UPDATE rooms SET status = ended to the state. -/
def setRoomEnded (s : GameState) (rc : String) : GameState :=
  { s with rooms := s.rooms.map (endedUpd rc) }

/-- Apply UPDATE rooms SET status = ongoing, current_phase = discussion. -/
def setRoomOngoingDiscussion (s : GameState) (rc : String) : GameState :=
  { s with rooms := s.rooms.map (ongoingDiscUpd rc) }

/-- The word pair used by assign_words_and_roles: the fetched pair on
success, the fixed fallback ("apple", "banana") on any failure of the
remote word API call (the whole fetch-and-unpack is wrapped in
try/except in the source). -/
def wordPair (fetched : Option (String × String)) : String × String :=
  fetched.getD ("apple", "banana")

/-- SERIAL id for a freshly inserted player row. -/
def freshPlayerId (s : GameState) : Nat :=
  (s.players.map (·.id)).foldl max 0 + 1

/-- Per-row update of assign_words_and_roles: a row whose id is among
the fetched playerIds gets is_mafia set to membership in mafia_ids,
word set to the spy word if selected else the civilian word, round set
to the given round number and eliminated reset to FALSE; other rows
are untouched. -/
def assignUpd (playerIds mafia_ids : List Nat) (round_num : Nat)
    (fetched : Option (String × String)) (p : Player) : Player :=
  if playerIds.contains p.id then
    { p with is_mafia := some (mafia_ids.contains p.id),
             word := some (if mafia_ids.contains p.id
                           then (wordPair fetched).2 else (wordPair fetched).1),
             round := round_num,
             eliminated := false }
  else p

/-- Helper assign_words_and_roles of game.py: for every fetched player
row (identified by id), set is_mafia to membership in mafia_ids, word
to the spy word if selected else the civilian word, round to the given
round number and eliminated to FALSE, all in a single transaction.
The words are a pure function of the fetch outcome (wordPair), so the
returned value is just the updated state. -/
def assign_words_and_roles (s : GameState) (playerIds mafia_ids : List Nat)
    (round_num : Nat) (fetched : Option (String × String)) : GameState :=
  { s with players := s.players.map (assignUpd playerIds mafia_ids round_num fetched) }

/-- A freshly inserted player row: only room_code and name are given,
every other column takes its models.py default (is_mafia NULL,
eliminated FALSE, word NULL, score 0, round 1). -/
def newPlayer (s : GameState) (rc n : String) : Player :=
  ⟨freshPlayerId s, rc, n, none, false, none, 0, 1⟩

/-- POST /create-room.  The oracle argument code is the candidate
produced by generate_unique_room_code; if it collides the INSERT
violates the unique constraint on rooms.code and the handler's
try/except turns it into a 500.  The room is created in status
"waiting" and the creator becomes its first player and host. -/
def create_room (s : GameState) (mafia_count : Nat) (name code : String) :
    Except HTTPError GameState :=
  if (findRoom s code).isSome then
    .error ⟨500, "duplicate key value violates unique constraint"⟩
  else
    .ok { s with
      rooms := s.rooms ++ [⟨code, mafia_count, name, "waiting", "none"⟩],
      players := s.players ++ [newPlayer s code name] }

/-- POST /join-room: name length must be 1..30, the room must exist
(404 otherwise), and the (room_code, name) pair must be free — the
unique constraint violation is caught and turned into a 400. -/
def join_room (s : GameState) (room_code name : String) : Except HTTPError GameState :=
  if name.length < 1 || name.length > 30 then
    .error ⟨400, "Name too short or too long"⟩
  else
    let rc := upperStr room_code
    match findRoom s rc with
    | none => .error ⟨404, "Room not found"⟩
    | some _ =>
      if s.players.any (fun p => p.room_code == rc && p.name == name) then
        .error ⟨400, "Player name already taken"⟩
      else
        .ok { s with players := s.players ++ [newPlayer s rc name] }

/-- POST /start-round.  The host check runs first: fetchval of
host_name is NULL for a nonexistent room and never equals the caller's
name, so both a missing room and a non-host caller give 403 (the
subsequent room-existence 404 in the source is unreachable).  Then the
player count is checked against mafia_count, roles and words are
assigned for round 1, and the room is set ongoing/discussion.
mafia_ids is the oracle outcome of random.sample over the player ids;
fetched is the word-fetch outcome. -/
def start_round (s : GameState) (room_code name : String) (mafia_ids : List Nat)
    (fetched : Option (String × String)) : Except HTTPError GameState :=
  let rc := upperStr room_code
  match findRoom s rc with
  | none => .error ⟨403, "Only host can start the round"⟩
  | some room =>
    if room.host_name ≠ name then .error ⟨403, "Only host can start the round"⟩
    else
      let players := playersOf s rc
      if players.length < room.mafia_count then .error ⟨400, "Not enough players"⟩
      else
        .ok (setRoomOngoingDiscussion
              (assign_words_and_roles s (players.map (·.id)) mafia_ids 1 fetched) rc)

/-- POST /start-voting: host check (403, also for a missing room, as in
start_round), then the phase must be discussion (400 otherwise), and
the phase becomes voting. -/
def start_voting (s : GameState) (room_code name : String) : Except HTTPError GameState :=
  let rc := upperStr room_code
  match findRoom s rc with
  | none => .error ⟨403, "Only host can start voting"⟩
  | some room =>
    if room.host_name ≠ name then .error ⟨403, "Only host can start voting"⟩
    else if room.current_phase ≠ "discussion" then
      .error ⟨400, "Can only start voting from discussion phase"⟩
    else
      .ok { s with rooms := s.rooms.map (votingUpd rc) }

/-- Round resolution as run inside the vote handler's transaction:
pick the plurality target, look up its player row (a missing row makes
the Python subscript of None raise, surfacing as a 500 and rolling the
transaction back), apply the branch of the scoring rule chosen by the
truthiness of is_mafia (NULL and FALSE both take the else branch),
append the round_results row with was_mafia copied from the player row,
and set the room status to ended (the current_phase is not touched). -/
def process_round_results (s : GameState) (rc : String) (current_round : Nat) :
    Except HTTPError GameState :=
  match tallyTop s.votes rc current_round with
  | none => .error ⟨400, "No votes cast"⟩
  | some eliminated_name =>
    match findPlayer s rc eliminated_name with
    | none => .error ⟨500, "TypeError: NoneType object is not subscriptable"⟩
    | some eliminated =>
      let s1 := if eliminated.is_mafia == some true
                then rewardSpyVoters s rc current_round
                else rewardUnvotedSpies s rc current_round
      let s2 := { s1 with round_results :=
                    s1.round_results ++ [⟨rc, current_round, eliminated_name, eliminated.is_mafia⟩] }
      .ok (setRoomEnded s2 rc)

/-- POST /vote: compute the active round as MAX(round) of round_results
(default 1), upsert the vote row for (room, voter, round), then compare
COUNT(DISTINCT voter_name) of the round against the room's total player
count; on quorum, run process_round_results inside the same
transaction.  The handler checks neither the room's existence nor its
status or phase. -/
def vote (s : GameState) (room_code voter_name voted_name : String) :
    Except HTTPError GameState :=
  let rc := upperStr room_code
  let current_round := currentRound s rc
  let votes1 := upsertVote s.votes rc current_round voter_name voted_name
  let s1 := { s with votes := votes1 }
  let active_players := s1.players.countP (fun p => p.room_code == rc)
  let current_votes := distinctVoters votes1 rc current_round
  if active_players ≤ current_votes then
    process_round_results s1 rc current_round
  else
    .ok s1

/-- POST /end-round.  Takes only the room code: there is no caller name
and no host verification.  Recomputes the active round and plurality
target like the vote path, 404s when the target has no player row,
but rewards — when the eliminated player is a spy — only the non-spy
voters who voted for the eliminated player (correct_voters), not the
voters of other spies; the non-spy branch, the round_results insert and
the status update match process_round_results. -/
def end_round (s : GameState) (room_code : String) : Except HTTPError GameState :=
  let rc := upperStr room_code
  let current_round := currentRound s rc
  match tallyTop s.votes rc current_round with
  | none => .error ⟨400, "No votes cast"⟩
  | some eliminated_name =>
    match findPlayer s rc eliminated_name with
    | none => .error ⟨404, "Eliminated player not found"⟩
    | some eliminated =>
      let s1 := if eliminated.is_mafia == some true
                then rewardElimVoters s rc current_round eliminated_name
                else rewardUnvotedSpies s rc current_round
      let s2 := { s1 with round_results :=
                    s1.round_results ++ [⟨rc, current_round, eliminated_name, eliminated.is_mafia⟩] }
      .ok (setRoomEnded s2 rc)

/-- POST /next-round: host check (403, also for a missing room), round
number = MAX(round) of round_results (default 0) + 1, player count
check, role/word assignment over all players of the room, room set
ongoing/discussion, and all the room's votes deleted. -/
def next_round (s : GameState) (room_code name : String) (mafia_ids : List Nat)
    (fetched : Option (String × String)) : Except HTTPError GameState :=
  let rc := upperStr room_code
  match findRoom s rc with
  | none => .error ⟨403, "Only host can start next round"⟩
  | some room =>
    if room.host_name ≠ name then .error ⟨403, "Only host can start next round"⟩
    else
      let next_round_num := pyOr (maxRoundOf s rc) 0 + 1
      let players := playersOf s rc
      if players.length < room.mafia_count then .error ⟨400, "Not enough players"⟩
      else
        let s1 := setRoomOngoingDiscussion
                   (assign_words_and_roles s (players.map (·.id)) mafia_ids next_round_num fetched) rc
        .ok { s1 with votes := s1.votes.filter (fun v => !(v.room_code == rc)) }

/-- POST /end-game: host check (403, also for a missing room), then all
votes, round_results, players and the room itself are deleted. -/
def end_game (s : GameState) (room_code name : String) : Except HTTPError GameState :=
  let rc := upperStr room_code
  match findRoom s rc with
  | none => .error ⟨403, "Only host can end the game"⟩
  | some room =>
    if room.host_name ≠ name then .error ⟨403, "Only host can end the game"⟩
    else
      .ok { rooms := s.rooms.filter (fun r => !(r.code == rc)),
            players := s.players.filter (fun p => !(p.room_code == rc)),
            votes := s.votes.filter (fun v => !(v.room_code == rc)),
            round_results := s.round_results.filter (fun rr => !(rr.room_code == rc)) }

/-- The status code of a handler outcome (none when the handler
succeeded). -/
def statusOf (r : Except HTTPError GameState) : Option Nat :=
  match r with
  | .error e => some e.status
  | .ok _ => none

/-- A state-changing command of the API, with the oracle outcomes of
its nondeterministic inputs. -/
inductive Op where
  | create (mafia_count : Nat) (name code : String)
  | join (room_code name : String)
  | startRound (room_code name : String) (mafia_ids : List Nat) (fetched : Option (String × String))
  | startVoting (room_code name : String)
  | castVote (room_code voter_name voted_name : String)
  | endRound (room_code : String)
  | nextRound (room_code name : String) (mafia_ids : List Nat) (fetched : Option (String × String))
  | endGame (room_code name : String)

/-- Dispatch a command to its handler. -/
def applyOp (s : GameState) : Op → Except HTTPError GameState
  | .create mc n c => create_room s mc n c
  | .join rc n => join_room s rc n
  | .startRound rc n m f => start_round s rc n m f
  | .startVoting rc n => start_voting s rc n
  | .castVote rc a b => vote s rc a b
  | .endRound rc => end_round s rc
  | .nextRound rc n m f => next_round s rc n m f
  | .endGame rc n => end_game s rc n

/-- Run a command sequence, stopping at the first error. -/
def runOps (ops : List Op) (s : GameState) : Except HTTPError GameState :=
  ops.foldlM (fun st op => applyOp st op) s

/-!
Concrete command traces.  Every concrete state used below is produced
by running a trace of API commands from the empty database, so each is
reachable behaviour of the handlers.
-/

/-- Ann creates room ABCDEF with one spy, Bob joins, the round starts
with Bob (player id 2) as the spy, voting starts, both players vote for
Bob — the second vote reaches quorum (2 distinct voters, 2 players) and
resolves the round — and then Bob re-submits the same vote after the
round has already resolved. -/
def c1ops : List Op :=
  [.create 1 "Ann" "ABCDEF",
   .join "ABCDEF" "Bob",
   .startRound "ABCDEF" "Ann" [2] none,
   .startVoting "ABCDEF" "Ann",
   .castVote "ABCDEF" "Ann" "Bob",
   .castVote "ABCDEF" "Bob" "Bob",
   .castVote "ABCDEF" "Bob" "Bob"]

/-- The same trace up to and including the quorum-reaching vote that
resolves round 1. -/
def c6ops : List Op :=
  [.create 1 "Ann" "ABCDEF",
   .join "ABCDEF" "Bob",
   .startRound "ABCDEF" "Ann" [2] none,
   .startVoting "ABCDEF" "Ann",
   .castVote "ABCDEF" "Ann" "Bob",
   .castVote "ABCDEF" "Bob" "Bob"]

/-- Room ABCDEF with mafia_count 2: players Ann (id 1, host), Bob (id
2), Cara (id 3), Dan (id 4); Bob and Cara are the spies of round 1.
Three of the four players vote (Ann and Bob for Bob, Dan for Cara), so
quorum (4) is not reached and no automatic resolution runs; Bob leads
the tally 2 votes to 1. -/
def c3ops : List Op :=
  [.create 2 "Ann" "ABCDEF",
   .join "ABCDEF" "Bob",
   .join "ABCDEF" "Cara",
   .join "ABCDEF" "Dan",
   .startRound "ABCDEF" "Ann" [2, 3] none,
   .startVoting "ABCDEF" "Ann",
   .castVote "ABCDEF" "Ann" "Bob",
   .castVote "ABCDEF" "Bob" "Bob",
   .castVote "ABCDEF" "Dan" "Cara"]

/-- The state reached by c3ops. -/
def c3state : GameState := ((runOps c3ops emptyState).toOption).getD emptyState

/-- Room ABCDEF with mafia_count 1: players Ann (id 1, host), Bob (id
2), Cara (id 3); Cara is the spy of round 1.  Ann and Cara vote for
Bob (a non-spy); quorum (3) is not reached, Bob leads the tally with 2
votes and Cara has received none. -/
def c4ops : List Op :=
  [.create 1 "Ann" "ABCDEF",
   .join "ABCDEF" "Bob",
   .join "ABCDEF" "Cara",
   .startRound "ABCDEF" "Ann" [3] none,
   .startVoting "ABCDEF" "Ann",
   .castVote "ABCDEF" "Ann" "Bob",
   .castVote "ABCDEF" "Cara" "Bob"]

/-- The state reached by c4ops. -/
def c4state : GameState := ((runOps c4ops emptyState).toOption).getD emptyState

/-- The forward half of the spec's status/phase invariant, as a
property of a rooms table: every room whose status is ongoing has
current_phase discussion or voting. -/
def RoomsFwd (rs : List Room) : Prop :=
  ∀ r ∈ rs, r.status = "ongoing" → r.current_phase = "discussion" ∨ r.current_phase = "voting"

/-- The forward half of the status/phase invariant on a state. -/
def StatusPhaseFwd (s : GameState) : Prop := RoomsFwd s.rooms

instance (rs : List Room) : Decidable (RoomsFwd rs) :=
  List.decidableBAll _ rs

instance (s : GameState) : Decidable (StatusPhaseFwd s) :=
  inferInstanceAs (Decidable (RoomsFwd s.rooms))

/-!
General lemmas about the list operations of the embedding.
-/

/-- find? over a map by a function that does not change the predicate's
verdict on any element. -/
theorem find?_map_pres {α : Type} (f : α → α) (p : α → Bool) (l : List α)
    (hp : ∀ a, p (f a) = p a) : (l.map f).find? p = (l.find? p).map f := by
  induction l with
  | nil => rfl
  | cons a t ih =>
    simp only [List.map_cons]
    by_cases h : p a = true
    · rw [List.find?_cons_of_pos _ (by rw [hp a]; exact h), List.find?_cons_of_pos _ h]
      rfl
    · rw [List.find?_cons_of_neg _ (by rw [hp a]; simpa using h),
          List.find?_cons_of_neg _ (by simpa using h)]
      exact ih

/-- Counting the members of a nodup list mids inside a nodup superlist
ids gives exactly the length of mids: the count of spies selected by a
valid random sample. -/
theorem countP_contains_of_nodup (ids mids : List Nat) (hids : ids.Nodup) (hm : mids.Nodup)
    (hsub : ∀ a ∈ mids, a ∈ ids) :
    ids.countP (fun x => mids.contains x) = mids.length := by
  rw [List.countP_eq_length_filter]
  have hfn : (ids.filter (fun x => mids.contains x)).Nodup := hids.filter _
  have hft : (ids.filter (fun x => mids.contains x)).toFinset = mids.toFinset := by
    ext a
    simp only [List.mem_toFinset, List.mem_filter, List.contains_iff_exists_mem_beq]
    constructor
    · rintro ⟨_, b, hb, hab⟩
      rw [show a = b from by simpa using hab]
      exact hb
    · intro h
      exact ⟨hsub a h, a, h, by simp⟩
  calc (ids.filter (fun x => mids.contains x)).length
      = (ids.filter (fun x => mids.contains x)).toFinset.card :=
        (List.toFinset_card_of_nodup hfn).symm
    _ = mids.toFinset.card := by rw [hft]
    _ = mids.length := List.toFinset_card_of_nodup hm

/-- filter over a map by a function that does not change the predicate's
verdict on any element. -/
theorem filter_map_pres {α : Type} (f : α → α) (p : α → Bool) (l : List α)
    (hp : ∀ a, p (f a) = p a) : (l.map f).filter p = (l.filter p).map f := by
  induction l with
  | nil => rfl
  | cons a t ih =>
    simp only [List.map_cons, List.filter_cons, hp a]
    by_cases h : p a = true
    · simp only [h, if_true, List.map_cons, ih]
    · simp [eq_false_of_ne_true h, ih]

/-- scoreBump changes no column but score. -/
theorem scoreBump_fields (c : Player → Bool) (q : Player) :
    (scoreBump c q).room_code = q.room_code ∧ (scoreBump c q).name = q.name
  ∧ (scoreBump c q).is_mafia = q.is_mafia ∧ (scoreBump c q).id = q.id := by
  unfold scoreBump
  split <;> exact ⟨rfl, rfl, rfl, rfl⟩

/-- The score written by scoreBump: +1 exactly on the rows satisfying
the condition. -/
theorem scoreBump_score (c : Player → Bool) (q : Player) :
    (scoreBump c q).score = q.score + (if c q then 1 else 0) := by
  unfold scoreBump
  split <;> simp

/-- Looking a player up by (room_code, name) commutes with a score
update: the found row is the bumped original row. -/
theorem findPlayer_map_scoreBump (ps : List Player) (c : Player → Bool) (rc n : String) :
    (ps.map (scoreBump c)).find? (fun p => p.room_code == rc && p.name == n)
      = (ps.find? (fun p => p.room_code == rc && p.name == n)).map (scoreBump c) :=
  find?_map_pres _ _ _ (fun a => by
    rw [(scoreBump_fields c a).1, (scoreBump_fields c a).2.1])

/-- The player rows of a room after a role/word assignment are exactly
the original rows of the room, each updated by assignUpd. -/
theorem playersOf_assign (s : GameState) (rc : String) (ids mids : List Nat) (rn : Nat)
    (fetched : Option (String × String)) :
    playersOf (assign_words_and_roles s ids mids rn fetched) rc
      = (playersOf s rc).map (assignUpd ids mids rn fetched) := by
  unfold playersOf assign_words_and_roles
  exact filter_map_pres _ _ _ (fun a => by unfold assignUpd; split <;> rfl)

/-!
Claim theorems.
-/

/-- C1.  The claim says a round resolves exactly once and at most one
RoundResult row exists per (room, round); the code violates it without
any concurrency.  In the c1ops trace both players of room ABCDEF vote,
quorum resolves round 1 and appends its RoundResult row; votes are not
cleared, the active round is still computed as MAX(round) = 1, and no
guard (status check, vote clearing, or unique constraint on
round_results) exists, so Bob's re-submitted vote observes quorum again
and resolution runs a second time: the final state holds two
RoundResult rows for (ABCDEF, 1) and Ann's single correct vote has
been awarded +1 twice (score 2). -/
theorem c1_resolution_runs_twice :
    (runOps c1ops emptyState).toOption.map
      (fun s => s.round_results.countP (fun rr => rr.room_code == "ABCDEF" && rr.round == 1))
      = some 2
  ∧ (runOps c1ops emptyState).toOption.map (fun s => scoreOf s "ABCDEF" "Ann") = some (some 2) := by
  decide

/-- C6 counterexample.  After the c6ops trace (create, join, start
round, start voting, quorum vote resolving round 1) the single room has
status "ended" while current_phase is still "voting": resolution sets
only the status, so the claimed equivalence (ended never has phase
voting) is false on a reachable state. -/
theorem c6_ended_room_keeps_voting_phase :
    (runOps c6ops emptyState).toOption.map
      (fun s => s.rooms.map (fun r => (r.status, r.current_phase)))
      = some [("ended", "voting")] := by
  decide

/-- C3 counterexample.  In c3state the eliminated plurality target Bob
is a spy, and Dan is a non-spy who voted this round for the other spy
Cara; the claim says Dan receives +1, but the end_round path (which the
claim's sources include) rewards only voters of the eliminated player:
after end_round Dan's score is 0 (while Ann, who voted for Bob, got 1). -/
theorem c3_end_round_ignores_other_spy_voters :
    tallyTop c3state.votes "ABCDEF" 1 = some "Bob"
  ∧ (findPlayer c3state "ABCDEF" "Bob").map Player.is_mafia = some (some true)
  ∧ (findPlayer c3state "ABCDEF" "Dan").map Player.is_mafia = some (some false)
  ∧ votedForSomeSpy c3state "ABCDEF" 1 "Dan" = true
  ∧ (end_round c3state "ABCDEF").toOption.map (fun s => scoreOf s "ABCDEF" "Dan")
      = some (some 0)
  ∧ (end_round c3state "ABCDEF").toOption.map (fun s => scoreOf s "ABCDEF" "Ann")
      = some (some 1) := by
  decide

/-- C5 counterexample.  On the same reachable state c3state the two
resolution paths disagree: the quorum path rewards Dan (a non-spy who
voted for a spy other than the eliminated one) with +1, the explicit
end-round path leaves Dan at 0. -/
theorem c5_paths_disagree_on_spy_elimination :
    (process_round_results c3state "ABCDEF" 1).toOption.map (fun s => scoreOf s "ABCDEF" "Dan")
      = some (some 1)
  ∧ (end_round c3state "ABCDEF").toOption.map (fun s => scoreOf s "ABCDEF" "Dan")
      = some (some 0) := by
  decide

/-- C8 counterexample.  end_round takes no caller name and performs no
host verification: on the reachable state c3state, whose only room has
host "Ann", the bare end-round command (invokable by any caller, e.g. a
non-host "Zed") succeeds and mutates the database (a RoundResult row is
appended) instead of failing with Forbidden. -/
theorem c8_end_round_has_no_host_check :
    c3state.rooms.map (fun r => r.host_name) = ["Ann"]
  ∧ (end_round c3state "ABCDEF").toOption.map (fun s => s.round_results.length) = some 1
  ∧ c3state.round_results.length = 0 := by
  decide

/-- C9 counterexample.  On the empty database (no room NOROOM exists)
each of the four transition commands fails with status 403 (Forbidden),
because the host check compares the caller's name against the absent
room's NULL host name before any existence check — not with the claimed
404 (NotFound). -/
theorem c9_missing_room_gives_forbidden :
    statusOf (start_round emptyState "NOROOM" "Ann" [] none) = some 403
  ∧ statusOf (start_voting emptyState "NOROOM" "Ann") = some 403
  ∧ statusOf (next_round emptyState "NOROOM" "Ann" [] none) = some 403
  ∧ statusOf (end_game emptyState "NOROOM" "Ann") = some 403 := by
  decide

/-- C8 (amended).  The host-gated transition commands are start-round,
start-voting, next-round and end-game: on an existing room, a caller
whose name differs from host_name gets Forbidden (403) from each of
them, and in the error case no write has happened (each handler
verifies the host before touching the database, and an error result
carries no state change).  end-round is not in this list: it takes no
caller name and performs no host verification (see the
counterexample). -/
theorem c8_host_gate (s : GameState) (rc name : String) (room : Room)
    (mids : List Nat) (fetched : Option (String × String))
    (hrc : upperStr rc = rc) (hroom : findRoom s rc = some room)
    (hname : room.host_name ≠ name) :
    start_round s rc name mids fetched = .error ⟨403, "Only host can start the round"⟩
  ∧ start_voting s rc name = .error ⟨403, "Only host can start voting"⟩
  ∧ next_round s rc name mids fetched = .error ⟨403, "Only host can start next round"⟩
  ∧ end_game s rc name = .error ⟨403, "Only host can end the game"⟩ := by
  refine ⟨?_, ?_, ?_, ?_⟩ <;>
    simp [start_round, start_voting, next_round, end_game, hrc, hroom, hname]

/-- Witness for c8_host_gate: on the reachable state c3state (room
ABCDEF, host Ann) the non-host caller Zed gets 403 from all four
host-gated commands. -/
theorem c8_host_gate_witness :
    upperStr "ABCDEF" = "ABCDEF"
  ∧ findRoom c3state "ABCDEF" = some ⟨"ABCDEF", 2, "Ann", "ongoing", "voting"⟩
  ∧ ("Ann" : String) ≠ "Zed"
  ∧ start_round c3state "ABCDEF" "Zed" [] none
      = .error ⟨403, "Only host can start the round"⟩
  ∧ start_voting c3state "ABCDEF" "Zed" = .error ⟨403, "Only host can start voting"⟩
  ∧ next_round c3state "ABCDEF" "Zed" [] none
      = .error ⟨403, "Only host can start next round"⟩
  ∧ end_game c3state "ABCDEF" "Zed" = .error ⟨403, "Only host can end the game"⟩ := by
  have h := c8_host_gate c3state "ABCDEF" "Zed" ⟨"ABCDEF", 2, "Ann", "ongoing", "voting"⟩
    [] none (by decide) (by decide) (by decide)
  exact ⟨by decide, by decide, by decide, h.1, h.2.1, h.2.2.1, h.2.2.2⟩

/-- C9 (amended).  A transition command (start-round, start-voting,
next-round, end-game) on a room code for which no room exists fails
with Forbidden (403), not NotFound: the host check compares the
caller's name with the NULL host_name fetched for the absent room and
fires before any existence check, so the 404 branches of these
handlers are unreachable. -/
theorem c9_missing_room_forbidden (s : GameState) (rc name : String)
    (mids : List Nat) (fetched : Option (String × String))
    (hrc : upperStr rc = rc) (hnone : findRoom s rc = none) :
    start_round s rc name mids fetched = .error ⟨403, "Only host can start the round"⟩
  ∧ start_voting s rc name = .error ⟨403, "Only host can start voting"⟩
  ∧ next_round s rc name mids fetched = .error ⟨403, "Only host can start next round"⟩
  ∧ end_game s rc name = .error ⟨403, "Only host can end the game"⟩ := by
  refine ⟨?_, ?_, ?_, ?_⟩ <;>
    simp [start_round, start_voting, next_round, end_game, hrc, hnone]

/-- Witness for c9_missing_room_forbidden: no room ZZZZZZ exists in the
empty database and all four commands return 403. -/
theorem c9_missing_room_forbidden_witness :
    upperStr "ZZZZZZ" = "ZZZZZZ"
  ∧ findRoom emptyState "ZZZZZZ" = none
  ∧ start_round emptyState "ZZZZZZ" "Bob" [] none
      = .error ⟨403, "Only host can start the round"⟩
  ∧ start_voting emptyState "ZZZZZZ" "Bob" = .error ⟨403, "Only host can start voting"⟩
  ∧ next_round emptyState "ZZZZZZ" "Bob" [] none
      = .error ⟨403, "Only host can start next round"⟩
  ∧ end_game emptyState "ZZZZZZ" "Bob" = .error ⟨403, "Only host can end the game"⟩ := by
  have h := c9_missing_room_forbidden emptyState "ZZZZZZ" "Bob" [] none (by decide) (by decide)
  exact ⟨by decide, by decide, h.1, h.2.1, h.2.2.1, h.2.2.2⟩

/-- C10.  When the word-supply call fails (fetched = none: any
exception or timeout of the remote API), assign_words_and_roles
substitutes the fixed fallback pair ("apple", "banana") and start-round
still completes with ok: every player of the room ends up holding the
fallback spy word if selected and the fallback civilian word otherwise,
and no error is surfaced to the caller. -/
theorem c10_word_supply_failure_never_blocks (s : GameState) (rc name : String)
    (room : Room) (mids : List Nat)
    (hrc : upperStr rc = rc) (hroom : findRoom s rc = some room)
    (hhost : room.host_name = name)
    (hcount : ¬ (playersOf s rc).length < room.mafia_count) :
    ∃ s1, start_round s rc name mids none = .ok s1
      ∧ ∀ p ∈ playersOf s1 rc,
          p.word = some (if p.is_mafia == some true then "banana" else "apple") := by
  have hstep : start_round s rc name mids none
      = .ok (setRoomOngoingDiscussion
              (assign_words_and_roles s ((playersOf s rc).map (·.id)) mids 1 none) rc) := by
    simp [start_round, hrc, hroom, hhost, hcount]
  refine ⟨_, hstep, ?_⟩
  have hps : playersOf (setRoomOngoingDiscussion
      (assign_words_and_roles s ((playersOf s rc).map (·.id)) mids 1 none) rc) rc
      = (playersOf s rc).map (assignUpd ((playersOf s rc).map (·.id)) mids 1 none) := by
    rw [show playersOf (setRoomOngoingDiscussion
          (assign_words_and_roles s ((playersOf s rc).map (·.id)) mids 1 none) rc) rc
        = playersOf (assign_words_and_roles s ((playersOf s rc).map (·.id)) mids 1 none) rc
        from rfl]
    exact playersOf_assign s rc _ mids 1 none
  rw [hps]
  intro p hp
  obtain ⟨q, hq, rfl⟩ := List.mem_map.1 hp
  have hid : (((playersOf s rc).map (·.id)).contains q.id) = true := by
    simp only [List.contains_iff_exists_mem_beq]
    exact ⟨q.id, List.mem_map_of_mem _ hq, by simp⟩
  unfold assignUpd
  rw [hid]
  simp only [if_true]
  cases hmc : mids.contains q.id <;> simp [wordPair]

/-- Witness for c10_word_supply_failure_never_blocks: on the reachable
state c4state (room ABCDEF, host Ann, three players, mafia_count 1) a
start-round whose word fetch failed succeeds and hands out the fallback
words. -/
theorem c10_word_supply_failure_witness :
    upperStr "ABCDEF" = "ABCDEF"
  ∧ findRoom c4state "ABCDEF" = some ⟨"ABCDEF", 1, "Ann", "ongoing", "voting"⟩
  ∧ (⟨"ABCDEF", 1, "Ann", "ongoing", "voting"⟩ : Room).host_name = "Ann"
  ∧ ¬ (playersOf c4state "ABCDEF").length
      < (⟨"ABCDEF", 1, "Ann", "ongoing", "voting"⟩ : Room).mafia_count
  ∧ ∃ s1, start_round c4state "ABCDEF" "Ann" [2] none = .ok s1
      ∧ ∀ p ∈ playersOf s1 "ABCDEF",
          p.word = some (if p.is_mafia == some true then "banana" else "apple") := by
  exact ⟨by decide, by decide, by decide, by decide,
    c10_word_supply_failure_never_blocks c4state "ABCDEF" "Ann"
      ⟨"ABCDEF", 1, "Ann", "ongoing", "voting"⟩ [2]
      (by decide) (by decide) (by decide) (by decide)⟩

/-- C2.  The vote upsert (INSERT ... ON CONFLICT (room_code,
voter_name, round) DO UPDATE SET voted_name) keeps the at-most-one-row
invariant for every (room, voter, round) key, and a re-submission by a
voter who already has a row this round updates that row in place: the
table keeps its length, every row with the key now carries the new
voted_name (last vote wins), and the distinct-voter count used for the
quorum check is unchanged for every room and round. -/
theorem c2_vote_upsert_idempotent (votes : List Vote) (rc voter voted : String) (rd : Nat)
    (hinv : VotesUnique votes) :
    VotesUnique (upsertVote votes rc rd voter voted)
  ∧ (votes.any (fun v => voteKey v rc voter rd) = true →
        (upsertVote votes rc rd voter voted).length = votes.length
      ∧ (∀ v ∈ upsertVote votes rc rd voter voted,
            voteKey v rc voter rd = true → v.voted_name = voted)
      ∧ (∀ rc2 rd2, distinctVoters (upsertVote votes rc rd voter voted) rc2 rd2
            = distinctVoters votes rc2 rd2)) := by
  constructor
  · unfold VotesUnique upsertVote
    by_cases hany : votes.any (fun v => voteKey v rc voter rd) = true
    · rw [if_pos hany, List.pairwise_map]
      apply hinv.imp
      intro a b hab
      have hg : ∀ x y : Vote,
          voteKeyEq (if voteKey x rc voter rd then { x with voted_name := voted } else x)
            (if voteKey y rc voter rd then { y with voted_name := voted } else y)
          = voteKeyEq x y := by
        intro x y
        split <;> split <;> rfl
      rw [hg a b]
      exact hab
    · rw [if_neg hany, List.pairwise_append]
      refine ⟨hinv, List.pairwise_singleton _ _, ?_⟩
      intro a ha b hb
      rw [List.mem_singleton] at hb
      subst hb
      have hak : voteKey a rc voter rd = false := by
        cases hvk : voteKey a rc voter rd
        · rfl
        · rw [List.any_eq_true] at hany
          exact absurd ⟨a, ha, hvk⟩ hany
      exact hak
  · intro hex
    refine ⟨?_, ?_, ?_⟩
    · unfold upsertVote
      rw [if_pos hex, List.length_map]
    · intro v hv hkey
      unfold upsertVote at hv
      rw [if_pos hex] at hv
      obtain ⟨w, hw, rfl⟩ := List.mem_map.1 hv
      by_cases hwk : voteKey w rc voter rd = true
      · rw [if_pos hwk]
      · rw [if_neg hwk] at hkey ⊢
        exact absurd hkey hwk
    · intro rc2 rd2
      unfold distinctVoters roundVotes upsertVote
      rw [if_pos hex]
      have hfil : (votes.map (fun v =>
            if voteKey v rc voter rd then { v with voted_name := voted } else v)).filter
            (fun v => v.room_code == rc2 && v.round == rd2)
          = ((votes.filter (fun v => v.room_code == rc2 && v.round == rd2)).map (fun v =>
            if voteKey v rc voter rd then { v with voted_name := voted } else v)) :=
        filter_map_pres _ _ _ (fun a => by split <;> rfl)
      rw [hfil, List.map_map]
      have hnames : (votes.filter (fun v => v.room_code == rc2 && v.round == rd2)).map
            ((fun v : Vote => v.voter_name) ∘ (fun v =>
              if voteKey v rc voter rd then { v with voted_name := voted } else v))
          = (votes.filter (fun v => v.room_code == rc2 && v.round == rd2)).map
            (fun v : Vote => v.voter_name) := by
        apply List.map_congr_left
        intro a _
        simp only [Function.comp_apply]
        split <;> rfl
      rw [hnames]

/-- Witness for c2_vote_upsert_idempotent: in the reachable state
c3state, Ann already voted for Bob in round 1 of room ABCDEF;
re-submitting her vote (now for Cara) keeps the table unique and its
length, rewrites her row's voted_name and leaves the distinct-voter
count unchanged. -/
theorem c2_vote_upsert_idempotent_witness :
    VotesUnique c3state.votes
  ∧ c3state.votes.any (fun v => voteKey v "ABCDEF" "Ann" 1) = true
  ∧ VotesUnique (upsertVote c3state.votes "ABCDEF" 1 "Ann" "Cara")
  ∧ (upsertVote c3state.votes "ABCDEF" 1 "Ann" "Cara").length = c3state.votes.length
  ∧ (∀ v ∈ upsertVote c3state.votes "ABCDEF" 1 "Ann" "Cara",
        voteKey v "ABCDEF" "Ann" 1 = true → v.voted_name = "Cara")
  ∧ distinctVoters (upsertVote c3state.votes "ABCDEF" 1 "Ann" "Cara") "ABCDEF" 1
      = distinctVoters c3state.votes "ABCDEF" 1 := by
  have h := c2_vote_upsert_idempotent c3state.votes "ABCDEF" "Ann" "Cara" 1 (by decide)
  have h2 := h.2 (by decide)
  exact ⟨by decide, by decide, h.1, h2.1, h2.2.1, h2.2.2 "ABCDEF" 1⟩

/-- The score column after a score-bump update, for every (room, name)
lookup: the found row is the original row with +1 exactly when it
satisfies the update's condition. -/
theorem scoreOf_of_players_bump (s t : GameState) (c : Player → Bool) (rc2 n : String)
    (hpl : t.players = s.players.map (scoreBump c)) :
    scoreOf t rc2 n = (findPlayer s rc2 n).map (fun q => q.score + (if c q then 1 else 0)) := by
  unfold scoreOf findPlayer
  rw [hpl, findPlayer_map_scoreBump]
  cases h : s.players.find? (fun p => p.room_code == rc2 && p.name == n) with
  | none => rfl
  | some q => simp [scoreBump_score]

/-- A score-bump update creates no player row: lookups that failed
before still fail. -/
theorem findPlayer_none_of_players_bump (s t : GameState) (c : Player → Bool) (rc2 n : String)
    (hpl : t.players = s.players.map (scoreBump c))
    (h : findPlayer s rc2 n = none) : findPlayer t rc2 n = none := by
  unfold findPlayer at h ⊢
  rw [hpl, findPlayer_map_scoreBump, h]
  rfl

/-- C3 (amended).  The quorum-triggered path implements the claimed
rule: when process_round_results eliminates a spy (plurality target en
whose player row has is_mafia TRUE), resolution succeeds and for every
player row q of any room the new score is the old score plus 1 exactly
when q satisfies spyVoterCond — q belongs to the resolved room, has
is_mafia FALSE and voted this round for some spy of the room (not
necessarily the eliminated one) — and no row is created or removed; one
RoundResult row is appended.  The explicit end-round path does not obey
this rule (see the counterexample: it rewards only voters of the
eliminated player). -/
theorem c3_process_rewards_voters_of_any_spy (s : GameState) (rc : String) (rd : Nat)
    (en : String) (p : Player)
    (h1 : tallyTop s.votes rc rd = some en)
    (h2 : findPlayer s rc en = some p)
    (h3 : p.is_mafia = some true) :
    ∃ s1, process_round_results s rc rd = .ok s1
      ∧ (∀ rc2 n q, findPlayer s rc2 n = some q →
            scoreOf s1 rc2 n = some (q.score + (if spyVoterCond s rc rd q then 1 else 0)))
      ∧ (∀ rc2 n, findPlayer s rc2 n = none → findPlayer s1 rc2 n = none)
      ∧ s1.round_results = s.round_results ++ [⟨rc, rd, en, some true⟩] := by
  have hm : (p.is_mafia == some true) = true := by rw [h3]; rfl
  refine ⟨setRoomEnded
      { rewardSpyVoters s rc rd with round_results :=
          (rewardSpyVoters s rc rd).round_results ++ [⟨rc, rd, en, p.is_mafia⟩] } rc,
    ?_, ?_, ?_, ?_⟩
  · unfold process_round_results
    simp only [h1, h2, hm, if_true]
  · intro rc2 n q hq
    rw [scoreOf_of_players_bump s _ (spyVoterCond s rc rd) rc2 n rfl, hq]
    rfl
  · intro rc2 n hn
    exact findPlayer_none_of_players_bump s _ (spyVoterCond s rc rd) rc2 n rfl hn
  · show s.round_results ++ [⟨rc, rd, en, p.is_mafia⟩]
      = s.round_results ++ [⟨rc, rd, en, some true⟩]
    rw [h3]

/-- Witness for c3_process_rewards_voters_of_any_spy: on the reachable
state c3state the plurality target Bob is a spy, and the theorem
applies; in particular Dan (non-spy, voted for spy Cara) is covered by
spyVoterCond and gets +1 on the quorum path. -/
theorem c3_process_rewards_voters_witness :
    tallyTop c3state.votes "ABCDEF" 1 = some "Bob"
  ∧ findPlayer c3state "ABCDEF" "Bob"
      = some ⟨2, "ABCDEF", "Bob", some true, false, some "banana", 0, 1⟩
  ∧ (⟨2, "ABCDEF", "Bob", some true, false, some "banana", 0, 1⟩ : Player).is_mafia = some true
  ∧ ∃ s1, process_round_results c3state "ABCDEF" 1 = .ok s1
      ∧ (∀ rc2 n q, findPlayer c3state rc2 n = some q →
            scoreOf s1 rc2 n
              = some (q.score + (if spyVoterCond c3state "ABCDEF" 1 q then 1 else 0)))
      ∧ (∀ rc2 n, findPlayer c3state rc2 n = none → findPlayer s1 rc2 n = none)
      ∧ s1.round_results = c3state.round_results ++ [⟨"ABCDEF", 1, "Bob", some true⟩] := by
  exact ⟨by decide, by decide, by decide,
    c3_process_rewards_voters_of_any_spy c3state "ABCDEF" 1 "Bob"
      ⟨2, "ABCDEF", "Bob", some true, false, some "banana", 0, 1⟩
      (by decide) (by decide) (by decide)⟩

/-- C4.  When round resolution eliminates a player who is not a spy
(is_mafia is FALSE, or still NULL: the code branches on truthiness),
both resolution paths — the quorum-triggered process_round_results and
the explicit end-round command (at the handlers' computed active round
and an upper-case room code) — produce the same state: every spy of
the room who received zero votes this round gains exactly +1
(unvotedSpyCond), every other player row of every room keeps its
score, no row appears or disappears, and one RoundResult row is
appended recording the eliminated player and its is_mafia value. -/
theorem c4_unvoted_spies_rewarded (s : GameState) (rc : String) (rd : Nat)
    (en : String) (p : Player)
    (hrc : upperStr rc = rc) (hrd : rd = currentRound s rc)
    (h1 : tallyTop s.votes rc rd = some en)
    (h2 : findPlayer s rc en = some p)
    (h3 : p.is_mafia ≠ some true) :
    ∃ s1, process_round_results s rc rd = .ok s1
      ∧ end_round s rc = .ok s1
      ∧ (∀ rc2 n q, findPlayer s rc2 n = some q →
            scoreOf s1 rc2 n = some (q.score + (if unvotedSpyCond s rc rd q then 1 else 0)))
      ∧ (∀ rc2 n, findPlayer s rc2 n = none → findPlayer s1 rc2 n = none)
      ∧ s1.round_results = s.round_results ++ [⟨rc, rd, en, p.is_mafia⟩] := by
  have hm : (p.is_mafia == some true) = false := beq_eq_false_iff_ne.2 h3
  refine ⟨setRoomEnded
      { rewardUnvotedSpies s rc rd with round_results :=
          (rewardUnvotedSpies s rc rd).round_results ++ [⟨rc, rd, en, p.is_mafia⟩] } rc,
    ?_, ?_, ?_, ?_, ?_⟩
  · unfold process_round_results
    simp only [h1, h2, hm, Bool.false_eq_true, if_false]
  · simp only [end_round, hrc]
    rw [← hrd]
    simp only [h1, h2, hm, Bool.false_eq_true, if_false]
  · intro rc2 n q hq
    rw [scoreOf_of_players_bump s _ (unvotedSpyCond s rc rd) rc2 n rfl, hq]
    rfl
  · intro rc2 n hn
    exact findPlayer_none_of_players_bump s _ (unvotedSpyCond s rc rd) rc2 n rfl hn
  · rfl

/-- Witness for c4_unvoted_spies_rewarded: on the reachable state
c4state the plurality target Bob is not a spy; both paths agree and
the zero-vote spy Cara is the only row covered by unvotedSpyCond. -/
theorem c4_unvoted_spies_rewarded_witness :
    upperStr "ABCDEF" = "ABCDEF"
  ∧ (1 : Nat) = currentRound c4state "ABCDEF"
  ∧ tallyTop c4state.votes "ABCDEF" 1 = some "Bob"
  ∧ findPlayer c4state "ABCDEF" "Bob"
      = some ⟨2, "ABCDEF", "Bob", some false, false, some "apple", 0, 1⟩
  ∧ (⟨2, "ABCDEF", "Bob", some false, false, some "apple", 0, 1⟩ : Player).is_mafia ≠ some true
  ∧ ∃ s1, process_round_results c4state "ABCDEF" 1 = .ok s1
      ∧ end_round c4state "ABCDEF" = .ok s1
      ∧ (∀ rc2 n q, findPlayer c4state rc2 n = some q →
            scoreOf s1 rc2 n
              = some (q.score + (if unvotedSpyCond c4state "ABCDEF" 1 q then 1 else 0)))
      ∧ (∀ rc2 n, findPlayer c4state rc2 n = none → findPlayer s1 rc2 n = none)
      ∧ s1.round_results = c4state.round_results ++ [⟨"ABCDEF", 1, "Bob", some false⟩] := by
  exact ⟨by decide, by decide, by decide, by decide, by decide,
    c4_unvoted_spies_rewarded c4state "ABCDEF" 1 "Bob"
      ⟨2, "ABCDEF", "Bob", some false, false, some "apple", 0, 1⟩
      (by decide) (by decide) (by decide) (by decide) (by decide)⟩

/-- C5 (amended).  On the same state (same votes, players and
round_results), the quorum path and the explicit end-round command
select the same eliminated player (both run the same plurality query)
and append the same RoundResult row, and their room and vote tables
agree; when the eliminated player is not a spy the resulting states are
identical.  When the eliminated player is a spy the score increments
differ (see the counterexample), which is why full equality holds only
under the not-a-spy hypothesis. -/
theorem c5_paths_agree_except_spy_reward (s : GameState) (rc : String) (rd : Nat)
    (en : String) (p : Player)
    (hrc : upperStr rc = rc) (hrd : rd = currentRound s rc)
    (h1 : tallyTop s.votes rc rd = some en)
    (h2 : findPlayer s rc en = some p) :
    ∃ s1 s2, process_round_results s rc rd = .ok s1 ∧ end_round s rc = .ok s2
      ∧ s1.rooms = s2.rooms ∧ s1.votes = s2.votes
      ∧ s1.round_results = s2.round_results
      ∧ (p.is_mafia ≠ some true → s1 = s2) := by
  cases hm : p.is_mafia == some true with
  | true =>
    refine ⟨setRoomEnded
        { rewardSpyVoters s rc rd with round_results :=
            (rewardSpyVoters s rc rd).round_results ++ [⟨rc, rd, en, p.is_mafia⟩] } rc,
      setRoomEnded
        { rewardElimVoters s rc rd en with round_results :=
            (rewardElimVoters s rc rd en).round_results ++ [⟨rc, rd, en, p.is_mafia⟩] } rc,
      ?_, ?_, rfl, rfl, rfl, ?_⟩
    · unfold process_round_results
      simp only [h1, h2, hm, if_true]
    · simp only [end_round, hrc]
      rw [← hrd]
      simp only [h1, h2, hm, if_true]
    · intro h3
      exact absurd (beq_iff_eq.1 hm) h3
  | false =>
    refine ⟨setRoomEnded
        { rewardUnvotedSpies s rc rd with round_results :=
            (rewardUnvotedSpies s rc rd).round_results ++ [⟨rc, rd, en, p.is_mafia⟩] } rc,
      setRoomEnded
        { rewardUnvotedSpies s rc rd with round_results :=
            (rewardUnvotedSpies s rc rd).round_results ++ [⟨rc, rd, en, p.is_mafia⟩] } rc,
      ?_, ?_, rfl, rfl, rfl, fun _ => rfl⟩
    · unfold process_round_results
      simp only [h1, h2, hm, Bool.false_eq_true, if_false]
    · simp only [end_round, hrc]
      rw [← hrd]
      simp only [h1, h2, hm, Bool.false_eq_true, if_false]

/-- Witness for c5_paths_agree_except_spy_reward: on the reachable
state c4state (not-a-spy elimination) the two paths give identical
states. -/
theorem c5_paths_agree_witness :
    upperStr "ABCDEF" = "ABCDEF"
  ∧ (1 : Nat) = currentRound c4state "ABCDEF"
  ∧ tallyTop c4state.votes "ABCDEF" 1 = some "Bob"
  ∧ findPlayer c4state "ABCDEF" "Bob"
      = some ⟨2, "ABCDEF", "Bob", some false, false, some "apple", 0, 1⟩
  ∧ ∃ s1 s2, process_round_results c4state "ABCDEF" 1 = .ok s1
      ∧ end_round c4state "ABCDEF" = .ok s2
      ∧ s1.rooms = s2.rooms ∧ s1.votes = s2.votes
      ∧ s1.round_results = s2.round_results
      ∧ ((⟨2, "ABCDEF", "Bob", some false, false, some "apple", 0, 1⟩ : Player).is_mafia
            ≠ some true → s1 = s2) := by
  exact ⟨by decide, by decide, by decide, by decide,
    c5_paths_agree_except_spy_reward c4state "ABCDEF" 1 "Bob"
      ⟨2, "ABCDEF", "Bob", some false, false, some "apple", 0, 1⟩
      (by decide) (by decide) (by decide) (by decide)⟩

/-- C7.  Role assignment over the players of a room (ids as fetched by
the handlers), given what random.sample guarantees — the chosen
mafia_ids are distinct ids drawn from the room's player ids, mafiaCount
of them: afterwards exactly mafiaCount players of the room have
is_mafia TRUE, every player of the room carries round = rn and
eliminated = FALSE, is_mafia records exactly whether the player was
selected, and the word is the spy word for selected players and the
civilian word otherwise. -/
theorem c7_role_assignment_exact (s : GameState) (rc : String) (mids : List Nat)
    (mafiaCount rn : Nat) (fetched : Option (String × String))
    (hids : ((playersOf s rc).map (·.id)).Nodup)
    (hmn : mids.Nodup)
    (hsub : ∀ a ∈ mids, a ∈ (playersOf s rc).map (·.id))
    (hlen : mids.length = mafiaCount) :
    (playersOf (assign_words_and_roles s ((playersOf s rc).map (·.id)) mids rn fetched) rc).countP
        (fun p => p.is_mafia == some true) = mafiaCount
  ∧ ∀ p ∈ playersOf (assign_words_and_roles s ((playersOf s rc).map (·.id)) mids rn fetched) rc,
      p.round = rn ∧ p.eliminated = false
      ∧ p.is_mafia = some (mids.contains p.id)
      ∧ p.word = some (if mids.contains p.id
                       then (wordPair fetched).2 else (wordPair fetched).1) := by
  rw [playersOf_assign]
  constructor
  · rw [List.countP_map]
    have hc : (playersOf s rc).countP
        ((fun p => p.is_mafia == some true)
          ∘ assignUpd ((playersOf s rc).map (·.id)) mids rn fetched)
        = (playersOf s rc).countP (fun p => mids.contains p.id) := by
      apply List.countP_congr
      intro q hq
      have hidq : (((playersOf s rc).map (·.id)).contains q.id) = true := by
        simp only [List.contains_iff_exists_mem_beq]
        exact ⟨q.id, List.mem_map_of_mem _ hq, by simp⟩
      simp only [Function.comp_apply]
      unfold assignUpd
      rw [hidq]
      simp only [if_true]
      cases mids.contains q.id <;> rfl
    rw [hc]
    have hc2 : (playersOf s rc).countP (fun p => mids.contains p.id)
        = ((playersOf s rc).map (·.id)).countP (fun x => mids.contains x) := by
      rw [List.countP_map]
      rfl
    rw [hc2, countP_contains_of_nodup _ _ hids hmn hsub, hlen]
  · intro p hp
    obtain ⟨q, hq, rfl⟩ := List.mem_map.1 hp
    have hidq : (((playersOf s rc).map (·.id)).contains q.id) = true := by
      simp only [List.contains_iff_exists_mem_beq]
      exact ⟨q.id, List.mem_map_of_mem _ hq, by simp⟩
    unfold assignUpd
    rw [hidq]
    simp only [if_true]
    exact ⟨trivial, trivial, trivial, trivial⟩

/-- Witness for c7_role_assignment_exact: in c4state's room the three
player ids are distinct, the sample selects exactly player id 2, and
after the assignment for round 2 that single player is the spy. -/
theorem c7_role_assignment_exact_witness :
    ((playersOf c4state "ABCDEF").map (·.id)).Nodup
  ∧ ([2] : List Nat).Nodup
  ∧ (∀ a ∈ ([2] : List Nat), a ∈ (playersOf c4state "ABCDEF").map (·.id))
  ∧ ([2] : List Nat).length = 1
  ∧ ((playersOf (assign_words_and_roles c4state
        ((playersOf c4state "ABCDEF").map (·.id)) [2] 2 none) "ABCDEF").countP
        (fun p => p.is_mafia == some true) = 1
      ∧ ∀ p ∈ playersOf (assign_words_and_roles c4state
            ((playersOf c4state "ABCDEF").map (·.id)) [2] 2 none) "ABCDEF",
          p.round = 2 ∧ p.eliminated = false
          ∧ p.is_mafia = some (([2] : List Nat).contains p.id)
          ∧ p.word = some (if ([2] : List Nat).contains p.id
                           then (wordPair none).2 else (wordPair none).1)) := by
  exact ⟨by decide, by decide, by decide, by decide,
    c7_role_assignment_exact c4state "ABCDEF" [2] 1 2 none
      (by decide) (by decide) (by decide) (by decide)⟩

/-- Setting a room's status to ended cannot break the forward
invariant: the touched room is no longer ongoing and the others are
unchanged. -/
theorem roomsFwd_map_ended (rs : List Room) (rc : String) (h : RoomsFwd rs) :
    RoomsFwd (rs.map (endedUpd rc)) := by
  intro r2 hr2
  obtain ⟨r, hr, rfl⟩ := List.mem_map.1 hr2
  unfold endedUpd
  split
  · intro hst
    exact absurd (show ("ended" : String) = "ongoing" from hst) (by decide)
  · exact h r hr

/-- Setting a room ongoing/discussion establishes the forward invariant
for it and preserves it elsewhere. -/
theorem roomsFwd_map_ongoingDisc (rs : List Room) (rc : String) (h : RoomsFwd rs) :
    RoomsFwd (rs.map (ongoingDiscUpd rc)) := by
  intro r2 hr2
  obtain ⟨r, hr, rfl⟩ := List.mem_map.1 hr2
  unfold ongoingDiscUpd
  split
  · intro _
    left
    rfl
  · exact h r hr

/-- Setting a room's phase to voting keeps the forward invariant:
whatever its status, its phase is now voting. -/
theorem roomsFwd_map_voting (rs : List Room) (rc : String) (h : RoomsFwd rs) :
    RoomsFwd (rs.map (votingUpd rc)) := by
  intro r2 hr2
  obtain ⟨r, hr, rfl⟩ := List.mem_map.1 hr2
  unfold votingUpd
  split
  · intro _
    right
    rfl
  · exact h r hr

/-- Deleting rooms preserves the forward invariant. -/
theorem roomsFwd_filter (rs : List Room) (p : Room → Bool) (h : RoomsFwd rs) :
    RoomsFwd (rs.filter p) := by
  intro r hr
  exact h r (List.mem_of_mem_filter hr)

/-- A freshly created waiting room satisfies the forward invariant. -/
theorem roomsFwd_append_waiting (rs : List Room) (c : String) (mc : Nat) (n : String)
    (h : RoomsFwd rs) : RoomsFwd (rs ++ [⟨c, mc, n, "waiting", "none"⟩]) := by
  intro r hr
  rcases List.mem_append.1 hr with h1 | h1
  · exact h r h1
  · rw [List.mem_singleton] at h1
    subst h1
    intro hst
    exact absurd (show ("waiting" : String) = "ongoing" from hst) (by decide)

/-- Rooms after a successful quorum resolution: the pre-state rooms
with the resolved room's status set to ended (current_phase untouched). -/
theorem rooms_of_process (s : GameState) (rc : String) (rd : Nat) (s1 : GameState)
    (h : process_round_results s rc rd = .ok s1) :
    s1.rooms = s.rooms.map (endedUpd rc) := by
  unfold process_round_results at h
  split at h
  · exact Except.noConfusion h
  · split at h
    · exact Except.noConfusion h
    · rw [Except.ok.injEq] at h
      subst h
      simp only [setRoomEnded]
      congr 1
      split <;> rfl

/-- Rooms after a successful explicit end-round: the pre-state rooms
with the room's status set to ended (current_phase untouched). -/
theorem rooms_of_end_round (s : GameState) (rc : String) (s1 : GameState)
    (h : end_round s rc = .ok s1) :
    s1.rooms = s.rooms.map (endedUpd (upperStr rc)) := by
  simp only [end_round] at h
  split at h
  · exact Except.noConfusion h
  · split at h
    · exact Except.noConfusion h
    · rw [Except.ok.injEq] at h
      subst h
      simp only [setRoomEnded]
      congr 1
      split <;> rfl

/-- Rooms after a successful start-round: the room is set
ongoing/discussion, others unchanged. -/
theorem rooms_of_start_round (s : GameState) (rc n : String) (mids : List Nat)
    (f : Option (String × String)) (s1 : GameState)
    (h : start_round s rc n mids f = .ok s1) :
    s1.rooms = s.rooms.map (ongoingDiscUpd (upperStr rc)) := by
  simp only [start_round] at h
  split at h
  · exact Except.noConfusion h
  · split at h
    · exact Except.noConfusion h
    · split at h
      · exact Except.noConfusion h
      · rw [Except.ok.injEq] at h
        subst h
        rfl

/-- Rooms after a successful next-round: the room is set
ongoing/discussion, others unchanged. -/
theorem rooms_of_next_round (s : GameState) (rc n : String) (mids : List Nat)
    (f : Option (String × String)) (s1 : GameState)
    (h : next_round s rc n mids f = .ok s1) :
    s1.rooms = s.rooms.map (ongoingDiscUpd (upperStr rc)) := by
  simp only [next_round] at h
  split at h
  · exact Except.noConfusion h
  · split at h
    · exact Except.noConfusion h
    · split at h
      · exact Except.noConfusion h
      · rw [Except.ok.injEq] at h
        subst h
        rfl

/-- Rooms after a successful start-voting: the room's phase is set to
voting, others unchanged. -/
theorem rooms_of_start_voting (s : GameState) (rc n : String) (s1 : GameState)
    (h : start_voting s rc n = .ok s1) :
    s1.rooms = s.rooms.map (votingUpd (upperStr rc)) := by
  simp only [start_voting] at h
  split at h
  · exact Except.noConfusion h
  · split at h
    · exact Except.noConfusion h
    · split at h
      · exact Except.noConfusion h
      · rw [Except.ok.injEq] at h
        subst h
        rfl

/-- Rooms after a successful vote: unchanged when quorum was not
reached, otherwise the resolved room is set to ended. -/
theorem rooms_of_vote (s : GameState) (rc a b : String) (s1 : GameState)
    (h : vote s rc a b = .ok s1) :
    s1.rooms = s.rooms ∨ s1.rooms = s.rooms.map (endedUpd (upperStr rc)) := by
  simp only [vote] at h
  split at h
  · right
    have h2 := rooms_of_process _ _ _ _ h
    exact h2
  · left
    rw [Except.ok.injEq] at h
    subst h
    rfl

/-- Rooms after a successful end-game: the room's rows are deleted,
others unchanged. -/
theorem rooms_of_end_game (s : GameState) (rc n : String) (s1 : GameState)
    (h : end_game s rc n = .ok s1) :
    s1.rooms = s.rooms.filter (fun r => !(r.code == upperStr rc)) := by
  simp only [end_game] at h
  split at h
  · exact Except.noConfusion h
  · split at h
    · exact Except.noConfusion h
    · rw [Except.ok.injEq] at h
      subst h
      rfl

/-- C6 (amended).  The forward half of the claimed invariant is
preserved by every API command: if every ongoing room of the state has
current_phase discussion or voting, the same holds after any
successful create, join, start-round, start-voting, vote, end-round,
next-round or end-game (and it holds of the empty initial database).
The converse half of the claim is false: round resolution sets status
to ended but leaves current_phase at voting, as the counterexample
trace shows. -/
theorem c6_status_phase_forward_invariant (s s1 : GameState) (op : Op)
    (hinv : StatusPhaseFwd s) (h : applyOp s op = .ok s1) : StatusPhaseFwd s1 := by
  cases op with
  | create mc n c =>
    simp only [applyOp, create_room] at h
    split at h
    · exact Except.noConfusion h
    · rw [Except.ok.injEq] at h
      subst h
      exact roomsFwd_append_waiting _ _ _ _ hinv
  | join rc n =>
    simp only [applyOp, join_room] at h
    split at h
    · exact Except.noConfusion h
    · split at h
      · exact Except.noConfusion h
      · split at h
        · exact Except.noConfusion h
        · rw [Except.ok.injEq] at h
          subst h
          exact hinv
  | startRound rc n m f =>
    show RoomsFwd s1.rooms
    rw [rooms_of_start_round _ _ _ _ _ _ (by exact h)]
    exact roomsFwd_map_ongoingDisc _ _ hinv
  | startVoting rc n =>
    show RoomsFwd s1.rooms
    rw [rooms_of_start_voting _ _ _ _ (by exact h)]
    exact roomsFwd_map_voting _ _ hinv
  | castVote rc a b =>
    rcases rooms_of_vote _ _ _ _ _ (by exact h) with hr | hr
    · show RoomsFwd s1.rooms
      rw [hr]
      exact hinv
    · show RoomsFwd s1.rooms
      rw [hr]
      exact roomsFwd_map_ended _ _ hinv
  | endRound rc =>
    show RoomsFwd s1.rooms
    rw [rooms_of_end_round _ _ _ (by exact h)]
    exact roomsFwd_map_ended _ _ hinv
  | nextRound rc n m f =>
    show RoomsFwd s1.rooms
    rw [rooms_of_next_round _ _ _ _ _ _ (by exact h)]
    exact roomsFwd_map_ongoingDisc _ _ hinv
  | endGame rc n =>
    show RoomsFwd s1.rooms
    rw [rooms_of_end_game _ _ _ _ (by exact h)]
    exact roomsFwd_filter _ _ hinv

/-- Witness for c6_status_phase_forward_invariant: the empty database
satisfies the forward invariant, creating room ABCDEF succeeds, and the
resulting state (a waiting room with phase none) satisfies it again. -/
theorem c6_status_phase_forward_invariant_witness :
    StatusPhaseFwd emptyState
  ∧ applyOp emptyState (.create 1 "Ann" "ABCDEF")
      = .ok ⟨[⟨"ABCDEF", 1, "Ann", "waiting", "none"⟩],
             [⟨1, "ABCDEF", "Ann", none, false, none, 0, 1⟩], [], []⟩
  ∧ StatusPhaseFwd ⟨[⟨"ABCDEF", 1, "Ann", "waiting", "none"⟩],
                    [⟨1, "ABCDEF", "Ann", none, false, none, 0, 1⟩], [], []⟩ := by
  exact ⟨by decide, by decide,
    c6_status_phase_forward_invariant emptyState
      ⟨[⟨"ABCDEF", 1, "Ann", "waiting", "none"⟩],
       [⟨1, "ABCDEF", "Ann", none, false, none, 0, 1⟩], [], []⟩
      (.create 1 "Ann" "ABCDEF") (by decide) (by decide)⟩
